import Mathlib

/-!
Verification development for the JAM task board (`src/tboard.h`).

The repository ships the header `tboard.h`, which fixes the compile-time
constants, the data structures (`task_t`, `remote_task_t`, `tboard_t`,
`history_t`, `msg_t`) and the documented contracts of the operations, together
with two legacy test drivers.  The implementation files (`tboard.c`,
`executor.c`, `history.c`, ...) are not part of the shipped sources, so every
operation below is a shallow embedding reconstructed from the specification
document and the header's doc comments; each such definition carries a doc
comment starting with `Modelled from the spec:` naming what is missing.
Constants and record layouts are taken directly from `tboard.h`.
-/

namespace TBoard

/-! ## Compile-time constants (tboard.h, Configurable and Internal Macros) -/

/-- MAX_TASKS from tboard.h line 21: bound on the concurrent-task counter. -/
def MAX_TASKS : Int := 65536

/-- MAX_SECONDARIES from tboard.h line 22. -/
def MAX_SECONDARIES : Nat := 10

/-- STACK_SIZE from tboard.h line 23 (bytes of a coroutine's private stack). -/
def STACK_SIZE : Nat := 57344

/-- REINSERT_PRIORITY_AT_HEAD from tboard.h line 24. -/
def REINSERT_PRIORITY_AT_HEAD : Nat := 1

/-- PRIORITY_EXEC task class from tboard.h line 43. -/
def PRIORITY_EXEC : Int := -1

/-- PRIMARY_EXEC task class from tboard.h line 44. -/
def PRIMARY_EXEC : Int := 0

/-- SECONDARY_EXEC task class from tboard.h line 45. -/
def SECONDARY_EXEC : Int := 1

/-- TASK_EXEC message type from tboard.h line 47 (for msg_processor). -/
def TASK_EXEC : Int := 0

/-- TASK_SCHEDULE message type from tboard.h line 48 (for msg_processor). -/
def TASK_SCHEDULE : Int := 1

/-- TASK_ID_BLOCKING task id tag from tboard.h line 52. -/
def TASK_ID_BLOCKING : Int := 1

/-- TASK_INITIALIZED task status from tboard.h line 54. -/
def TASK_INITIALIZED : Int := 1

/-- TASK_RUNNING task status from tboard.h line 55. -/
def TASK_RUNNING : Int := 2

/-- TASK_COMPLETED task status from tboard.h line 56. -/
def TASK_COMPLETED : Int := 3

/-- MAX_MSG_LENGTH from tboard.h line 58: payload bound of a remote message. -/
def MAX_MSG_LENGTH : Nat := 254

/-- RTASK_SEND direction flag from tboard.h line 60. -/
def RTASK_SEND : Int := 1

/-- RTASK_RECV direction flag from tboard.h line 61. -/
def RTASK_RECV : Int := 0

/-! ## Data structures (tboard.h) -/

/-- function_t from tboard.h: a task function descriptor.  The function
pointer itself plays no role in the scheduling claims, so only the symbolic
name used for history keying is carried. -/
structure function_t where
  fn_name : String

/-- task_t from tboard.h: id, status, type (task class), cpu_time, yields,
function descriptor, data_size of the user argument blob (non-zero means the
board owns the blob), and the optional parent link of a blocking child.  The
coroutine context `ctx` and descriptor `desc` are runtime handles; their only
observable role in the claims is being freed on destruction, which the
`Resource` type below records explicitly. -/
inductive task_t where
  | mk (id : Int) (status : Int) (type : Int) (cpu_time : Int) (yields : Int)
      (fn : function_t) (data_size : Nat) (parent : Option task_t)

/-- Projection to the task id field of task_t. -/
def task_t.id : task_t → Int
  | .mk i _ _ _ _ _ _ _ => i

/-- Projection to the status field of task_t. -/
def task_t.status : task_t → Int
  | .mk _ s _ _ _ _ _ _ => s

/-- Projection to the type (task class) field of task_t. -/
def task_t.type : task_t → Int
  | .mk _ _ ty _ _ _ _ _ => ty

/-- Projection to the fn field of task_t. -/
def task_t.fn : task_t → function_t
  | .mk _ _ _ _ _ f _ _ => f

/-- Projection to the data_size field of task_t. -/
def task_t.data_size : task_t → Nat
  | .mk _ _ _ _ _ _ d _ => d

/-- Projection to the parent field of task_t. -/
def task_t.parent : task_t → Option task_t
  | .mk _ _ _ _ _ _ _ p => p

/-- remote_task_t from tboard.h: direction status, bounded ASCII message,
response blob size (non-zero means owned), the originating task, and the
blocking flag.  The response data pointer itself is opaque; only its
ownership size is tracked. -/
structure remote_task_t where
  status : Int
  message : String
  data_size : Nat
  calling_task : task_t
  blocking : Bool

/-- history_t from tboard.h: one execution-history record keyed by function
name.  In the header `mean_t`, `mean_yield` and `yields` are C doubles; the
claims settled here concern the record structure and counting, not the
floating-point running averages, so the numeric fields are carried as
naturals. -/
structure history_t where
  fn_name : String
  mean_t : Nat
  mean_yield : Nat
  yields : Nat
  executions : Nat
  completions : Nat

/-- msg_t from tboard.h: a message delivered by the MQTT adapter.  Its `data`
field must be castable to the task to add; that task is passed alongside in
`msg_processor` below. -/
structure msg_t where
  type : Int
  subtype : Int
  has_side_effects : Bool
  ud_allocd : Nat

/-- tboard_t from tboard.h, restricted to the fields the claims observe:
board status (0 created, 1 started), the shutdown flag, the concurrent-task
counter `task_count`, the number `sqs` of secondary queues, the primary ready
queue, the secondary ready queues, the outbound (`msg_sent`) and inbound
(`msg_recv`) message queues, and the execution-history table (a list standing
for the uthash table keyed by function name).  The field `rr_next` is the
round-robin pointer for secondary-queue selection; the header does not name
it (it lives in the missing implementation), the spec describes it as `a
simple round-robin pointer maintained by the board`. -/
structure tboard_t where
  status : Int
  shutdown : Int
  task_count : Int
  sqs : Nat
  rr_next : Nat
  pqueue : List task_t
  squeue : List (List task_t)
  msg_sent : List remote_task_t
  msg_recv : List remote_task_t
  exec_hist : List history_t

/-- Resource names one freeable resource of the runtime: a task's coroutine
context, a task's owned argument blob, or the task object itself.  Destroy
operations below return the list of resources they free, making frame claims
about destruction expressible. -/
inductive Resource where
  | ctxOf (task : task_t)
  | argsOf (task : task_t)
  | taskObj (task : task_t)

/-- All tasks parked in ready queues of a board: the primary queue followed
by every secondary queue. -/
def readyTasks (t : tboard_t) : List task_t :=
  t.pqueue ++ t.squeue.flatten

/-! ## Board lifecycle -/

/-- Modelled from the spec: `tboard.c` is absent.  tboard_create (spec 4.8)
allocates and initializes the board with `secondary_count` in
[1, MAX_SECONDARIES], empty queues, empty history, a zero task counter,
status 0 (created, not started) and shutdown flag clear. -/
def tboard_create (secondary_queues : Nat) : Option tboard_t :=
  if 1 ≤ secondary_queues ∧ secondary_queues ≤ MAX_SECONDARIES then
    some { status := 0, shutdown := 0, task_count := 0,
           sqs := secondary_queues, rr_next := 0,
           pqueue := [], squeue := List.replicate secondary_queues [],
           msg_sent := [], msg_recv := [], exec_hist := [] }
  else none

/-- Modelled from the spec: `tboard.c` is absent.  tboard_start (spec 4.8)
spawns the executor threads and sets the board status to 1 (started). -/
def tboard_start (t : tboard_t) : tboard_t :=
  { t with status := 1 }

/-- Modelled from the spec: `tboard.c` is absent.  tboard_kill per the header
contract returns false when the board pointer is NULL or the board has not
begun (status 0); otherwise it sets the shutdown flag, cancels and joins the
executors, and returns true.  Per the spec's idempotence property (calling
kill twice returns true then false), a successful kill leaves the board no
longer in the started state. -/
def tboard_kill : Option tboard_t → Bool × Option tboard_t
  | none => (false, none)
  | some t =>
    if t.status = 0 then (false, some t)
    else (true, some { t with shutdown := 1, status := 0 })

/-! ## Concurrent-task counter -/

/-- Modelled from the spec: `tboard.c` is absent.  tboard_add_concurrent per
the header contract increments the counter iff the current value is below
MAX_TASKS, returning 0 on error (incrementing would exceed MAX_TASKS) and the
new counter value otherwise.  Result: (return value, new counter value). -/
def tboard_add_concurrent (count : Int) : Int × Int :=
  if MAX_TASKS ≤ count then (0, count)
  else (count + 1, count + 1)

/-- Modelled from the spec: `tboard.c` is absent.  tboard_deinc_concurrent
decrements the concurrent-task counter without any check, run when a
(non-blocking-child) task completes. -/
def tboard_deinc_concurrent (t : tboard_t) : tboard_t :=
  { t with task_count := t.task_count - 1 }

/-! ## Task placement and creation -/

/-- Modelled from the spec: `task.c` is absent.  task_place (spec 4.1, 4.2)
puts an initialized task into its ready queue: a priority-class task at the
head of the primary queue (because REINSERT_PRIORITY_AT_HEAD is 1; at the
tail otherwise), a primary-class task at the tail of the primary queue, and a
secondary-class task at the tail of the secondary queue selected by the
board's round-robin pointer, which then advances. -/
def task_place (t : tboard_t) (task : task_t) : tboard_t :=
  if task.type = PRIORITY_EXEC then
    if REINSERT_PRIORITY_AT_HEAD = 1 then
      { t with pqueue := task :: t.pqueue }
    else
      { t with pqueue := t.pqueue ++ [task] }
  else if task.type = PRIMARY_EXEC then
    { t with pqueue := t.pqueue ++ [task] }
  else
    { t with squeue := t.squeue.set (t.rr_next % t.sqs)
               (t.squeue.getD (t.rr_next % t.sqs) [] ++ [task]),
             rr_next := (t.rr_next + 1) % t.sqs }

/-- Modelled from the spec: `task.c` is absent.  task_add reserves a
concurrent-task slot through tboard_add_concurrent and, when the reservation
succeeds, places the task in its ready queue; when the reservation fails
(counter at MAX_TASKS) it returns false and leaves the board unchanged. -/
def task_add (t : tboard_t) (task : task_t) : Bool × tboard_t :=
  if (tboard_add_concurrent t.task_count).fst = 0 then (false, t)
  else
    (true, task_place
      { t with task_count := (tboard_add_concurrent t.task_count).snd } task)

/-- Modelled from the spec: `task.c` is absent.  task_create (spec 4.2)
validates that the board is started and not shutting down, allocates the task
object and its coroutine (allocation success is the `allocOk` oracle
argument), then adds it through task_add, which reserves the counter slot and
enqueues.  On any failure it returns false with the board unchanged: no queue
mutation and no counter change. -/
def task_create (t : tboard_t) (fn : function_t) (type : Int)
    (sizeof_args : Nat) (allocOk : Bool) : Bool × tboard_t :=
  if t.status ≠ 1 ∨ t.shutdown = 1 then (false, t)
  else if allocOk = false then (false, t)
  else
    task_add t (task_t.mk 0 TASK_INITIALIZED type 0 0 fn sizeof_args none)

/-- Modelled from the spec: `task.c` is absent.  blocking_task_create
(spec 4.4) must be called from within a running task (the `caller` argument;
none models a call from outside any task, which fails).  It creates a child
task whose parent is the caller, does not reserve a concurrent-task slot, and
yields; the executor then places the child on its ready queue and does not
requeue the caller.  The returned board is the net effect on the board state
at the moment the parent is parked. -/
def blocking_task_create (t : tboard_t) (fn : function_t) (type : Int)
    (sizeof_args : Nat) (caller : Option task_t) : Bool × tboard_t :=
  match caller with
  | none => (false, t)
  | some p =>
    (true, task_place t (task_t.mk TASK_ID_BLOCKING TASK_INITIALIZED type 0 0
      fn sizeof_args (some p)))

/-! ## Completion and destruction -/

/-- Resources freed when a completed task's own storage is released: its
coroutine context, its argument blob when data_size is non-zero (the board
owns the blob), and the task object itself. -/
def ownResources (task : task_t) : List Resource :=
  [Resource.ctxOf task]
    ++ (if 0 < task.data_size then [Resource.argsOf task] else [])
    ++ [Resource.taskObj task]

/-- Modelled from the spec: `executor.c` is absent.  task_completion is the
executor's on-return step (spec 4.3 step 5 and 4.4): the completed task's
history is updated (not tracked here), then, if the task has a parent, the
parent is requeued onto its ready queue through task_place and only the
child's own resources are freed; otherwise the concurrent counter is
decremented and the task's resources are freed.  The result pairs the new
board with the list of freed resources. -/
def task_completion (t : tboard_t) (task : task_t) : tboard_t × List Resource :=
  match task.parent with
  | some p => (task_place t p, ownResources task)
  | none => (tboard_deinc_concurrent t, ownResources task)

/-! ## Remote tasks -/

/-- Modelled from the spec: `task.c` is absent.  remote_task_create
(spec 4.5) must be called from within a running task.  It builds an envelope
pointing at the caller with the message truncated to MAX_MSG_LENGTH bytes,
pushes it onto the outbound queue, and yields.  If non-blocking, the
originator is re-admitted to its ready queue immediately on send; if
blocking, the originator stays parked inside the envelope and is not
requeued.  The returned board is the net effect at the moment the envelope
has been sent. -/
def remote_task_create (t : tboard_t) (message : String)
    (sizeof_resp : Nat) (blocking : Bool) (caller : Option task_t) :
    Bool × tboard_t :=
  match caller with
  | none => (false, t)
  | some p =>
    let rt : remote_task_t :=
      { status := RTASK_SEND, message := (message.take MAX_MSG_LENGTH),
        data_size := sizeof_resp, calling_task := p, blocking := blocking }
    let t1 := { t with msg_sent := t.msg_sent ++ [rt] }
    if blocking then (true, t1)
    else (true, task_place t1 p)

/-! ## Message processor -/

/-- Modelled from the spec: `msg_processing.c` is absent.  msg_processor per
the header contract handles a controller-to-worker TASK_EXEC message (the
only implemented message kind; other kinds are not placed and fail), adding
the task carried by the message's data field to the board through task_add;
it returns false exactly when the task could not be added, which occurs when
adding it would exceed the allowed number of concurrently running tasks. -/
def msg_processor (t : tboard_t) (msg : msg_t) (task : task_t) :
    Bool × tboard_t :=
  if msg.type = TASK_EXEC then task_add t task
  else (false, t)

/-! ## History printing -/

/-- Character for one decimal digit, as produced by printf-style decimal
rendering. -/
def digitChar (d : Nat) : Char :=
  match d with
  | 0 => '0' | 1 => '1' | 2 => '2' | 3 => '3' | 4 => '4'
  | 5 => '5' | 6 => '6' | 7 => '7' | 8 => '8' | 9 => '9'
  | _ => '0'

/-- Decimal digit characters, fuelled helper: with enough fuel, the digits
of `n`, most significant first; empty for zero. -/
def natDecCharsAux : Nat → Nat → List Char
  | 0, _ => []
  | fuel + 1, n =>
    if n = 0 then [] else
      natDecCharsAux fuel (n / 10) ++ [digitChar (n % 10)]

/-- Decimal digit characters of a natural number, most significant first;
empty for zero (n itself is enough fuel since division by ten decreases). -/
def natDecChars (n : Nat) : List Char := natDecCharsAux n n

/-- Decimal rendering of a natural number, as printf renders a non-negative
integer field. -/
def natRepr (n : Nat) : String :=
  if n = 0 then "0" else String.mk (natDecChars n)

/-- Modelled from the spec: `history.c` is absent.  recordLine is the text of
one history record per the spec's History text format: the whitespace-
separated fields are function name, completions, executions, total yields,
mean CPU time and mean yields. -/
def recordLine (h : history_t) : String :=
  h.fn_name ++ " " ++ natRepr h.completions ++ " " ++ natRepr h.executions
    ++ " " ++ natRepr h.yields ++ " " ++ natRepr h.mean_t
    ++ " " ++ natRepr h.mean_yield

/-- Modelled from the spec: `history.c` is absent.  history_print_records
walks the history table under the history mutex and emits one record per
entry; the result is the list of emitted record lines, in table order. -/
def history_print_records (t : tboard_t) : List String :=
  t.exec_hist.map recordLine

/-! ## Counter traces (for the task-count invariant) -/

/-- One user-level operation touching the concurrent-task counter: a
task_create attempt (with its function, class, argument size and coroutine
allocation outcome) or the completion-and-destruction of a live non-child
task. -/
inductive TaskOp where
  | create (fn : function_t) (type : Int) (sizeof_args : Nat) (allocOk : Bool)
  | destroy

/-- Effect of one TaskOp on the board: a create runs task_create; a destroy
runs the executor's completion step on a parentless task (only the counter
decrement matters here). -/
def applyOp (t : tboard_t) (op : TaskOp) : tboard_t :=
  match op with
  | .create fn ty sz ok => (task_create t fn ty sz ok).snd
  | .destroy => tboard_deinc_concurrent t

/-- Board state after a sequence of TaskOps. -/
def runOps (t : tboard_t) : List TaskOp → tboard_t
  | [] => t
  | op :: ops => runOps (applyOp t op) ops

/-- A sequence of TaskOps is well formed from a given board when every
destroy is the completion of a live task, i.e. happens while the counter is
positive. -/
def wfOps (t : tboard_t) : List TaskOp → Bool
  | [] => true
  | op :: ops =>
    match op with
    | .destroy =>
      decide (0 < t.task_count) && wfOps (applyOp t .destroy) ops
    | .create fn ty sz ok => wfOps (applyOp t (.create fn ty sz ok)) ops

/-- Number of successful task_create calls along a run. -/
def createdCount (t : tboard_t) : List TaskOp → Int
  | [] => 0
  | .create fn ty sz ok :: ops =>
    (if (task_create t fn ty sz ok).fst then 1 else 0)
      + createdCount (applyOp t (.create fn ty sz ok)) ops
  | .destroy :: ops => createdCount (applyOp t .destroy) ops

/-- Number of destroy operations in a sequence of TaskOps. -/
def destroyedCount : List TaskOp → Int
  | [] => 0
  | .destroy :: ops => 1 + destroyedCount ops
  | _ :: ops => destroyedCount ops

/-! ## Blocking-child protocol (for the temporal claim) -/

/-- State of one parent-child pair after blocking_task_create: the child is
queued (parent parked), the child is being executed (parent parked), the
parent has been requeued by the child's completion, or the parent has been
resumed (blocking_task_create returns inside the parent). -/
inductive BCState where
  | childQueued
  | childRunning
  | parentQueued
  | parentRunning
deriving DecidableEq

/-- Scheduler events visible to one blocking parent-child pair: an executor
pops the child, the child yields back to its queue, the child completes (its
completion step requeues the parent), an executor pops the parent (the parent
resumes). -/
inductive BCEvent where
  | popChild
  | yieldChild
  | completeChild
  | resumeParent
deriving DecidableEq

/-- Modelled from the spec: `executor.c` is absent.  bcStep is the transition
relation of the blocking-child protocol (spec 4.3 step 6 and 4.4): from
childQueued an executor may pop the child; a running child may yield back or
complete; completion requeues the parent; a queued parent may be popped,
which resumes it.  No other event is enabled; in particular the parent cannot
resume before the child completes because the parent is parked, not queued. -/
def bcStep : BCState → BCEvent → Option BCState
  | .childQueued, .popChild => some .childRunning
  | .childRunning, .yieldChild => some .childQueued
  | .childRunning, .completeChild => some .parentQueued
  | .parentQueued, .resumeParent => some .parentRunning
  | _, _ => none

/-- Run of the blocking-child protocol over a list of events; none when some
event was not enabled in its state. -/
def bcRun (s : BCState) : List BCEvent → Option BCState
  | [] => some s
  | e :: es =>
    match bcStep s e with
    | none => none
    | some s1 => bcRun s1 es

/-- Number of parent resumptions in a list of blocking-child events. -/
def countResume : List BCEvent → Nat
  | [] => 0
  | e :: es =>
    match e with
    | .resumeParent => countResume es + 1
    | _ => countResume es

/-! ## Sample values used by the witness theorems -/

/-- A sample function descriptor. -/
def sampleFn : function_t := ⟨"collatz"⟩

/-- A started board with two empty secondary queues and no tasks. -/
def sampleBoard : tboard_t :=
  { status := 1, shutdown := 0, task_count := 0, sqs := 2, rr_next := 0,
    pqueue := [], squeue := [[], []], msg_sent := [], msg_recv := [],
    exec_hist := [] }

/-- A sample TASK_EXEC message. -/
def sampleMsg : msg_t :=
  { type := TASK_EXEC, subtype := 0, has_side_effects := false,
    ud_allocd := 0 }

/-- A sample parent task of primary class. -/
def sampleParent : task_t :=
  task_t.mk 0 TASK_RUNNING PRIMARY_EXEC 0 0 sampleFn 0 none

/-- A sample blocking child of sampleParent, of secondary class, with an
owned argument blob. -/
def sampleChild : task_t :=
  task_t.mk TASK_ID_BLOCKING TASK_COMPLETED SECONDARY_EXEC 0 0 sampleFn 4
    (some sampleParent)

/-- Board produced by tboard_create 1, for the C2 witness. -/
def witnessBoard : tboard_t :=
  { status := 0, shutdown := 0, task_count := 0, sqs := 1, rr_next := 0,
    pqueue := [], squeue := [[]], msg_sent := [], msg_recv := [],
    exec_hist := [] }

/-- One successful creation followed by one destruction, for the C2
witness. -/
def witnessOps : List TaskOp :=
  [.create sampleFn PRIMARY_EXEC 0 true, .destroy]

/-! ## Helper lemmas -/

/-- task_place changes only the ready queues and the round-robin pointer. -/
theorem task_place_frame (t : tboard_t) (task : task_t) :
    (task_place t task).task_count = t.task_count ∧
    (task_place t task).msg_sent = t.msg_sent ∧
    (task_place t task).msg_recv = t.msg_recv ∧
    (task_place t task).status = t.status ∧
    (task_place t task).shutdown = t.shutdown ∧
    (task_place t task).exec_hist = t.exec_hist := by
  unfold task_place
  split
  · split <;> exact ⟨rfl, rfl, rfl, rfl, rfl, rfl⟩
  · split
    · exact ⟨rfl, rfl, rfl, rfl, rfl, rfl⟩
    · exact ⟨rfl, rfl, rfl, rfl, rfl, rfl⟩

/-- A placed task is parked in a ready queue of the resulting board, provided
the round-robin index is in range of the secondary-queue list. -/
theorem task_place_mem (t : tboard_t) (task : task_t)
    (h : t.rr_next % t.sqs < t.squeue.length) :
    task ∈ readyTasks (task_place t task) := by
  unfold task_place readyTasks
  split
  · split <;> simp
  · split
    · simp
    · simp only [List.mem_append]
      right
      rw [List.mem_flatten]
      refine ⟨t.squeue.getD (t.rr_next % t.sqs) [] ++ [task], ?_, by simp⟩
      have hl : t.rr_next % t.sqs <
          (t.squeue.set (t.rr_next % t.sqs)
            (t.squeue.getD (t.rr_next % t.sqs) [] ++ [task])).length := by
        rw [List.length_set]; exact h
      have hg := List.getElem_set_self (l := t.squeue)
        (i := t.rr_next % t.sqs)
        (a := t.squeue.getD (t.rr_next % t.sqs) [] ++ [task]) hl
      have hm := List.getElem_mem hl
      rw [hg] at hm
      exact hm

/-- A task is never its own parent (the parent is a strict subterm). -/
theorem parent_ne_self (task p : task_t) (h : task.parent = some p) :
    p ≠ task := by
  intro he
  cases task with
  | mk i s ty c y f d par =>
    simp only [task_t.parent] at h
    subst h
    have hs := congrArg sizeOf he
    simp only [task_t.mk.sizeOf_spec, Option.some.sizeOf_spec] at hs
    omega

/-- When task_add returns false it leaves the board unchanged. -/
theorem task_add_false_frame (t : tboard_t) (task : task_t)
    (h : (task_add t task).fst = false) : (task_add t task).snd = t := by
  unfold task_add at h ⊢
  split at h
  · split
    · rfl
    · simp_all
  · simp at h

/-- When task_add returns true the counter was below MAX_TASKS and has been
incremented, and the task was placed on the reserved board. -/
theorem task_add_true_effect (t : tboard_t) (task : task_t)
    (h0 : 0 ≤ t.task_count) (h : (task_add t task).fst = true) :
    t.task_count < MAX_TASKS ∧
    (task_add t task).snd =
      task_place { t with task_count := t.task_count + 1 } task ∧
    (task_add t task).snd.task_count = t.task_count + 1 := by
  unfold task_add tboard_add_concurrent at h ⊢
  by_cases hm : MAX_TASKS ≤ t.task_count
  · simp [hm] at h
  · have hne : ¬(t.task_count + 1 = 0) := by omega
    simp only [if_neg hm, if_neg hne]
    refine ⟨by omega, by simp, ?_⟩
    exact (task_place_frame { t with task_count := t.task_count + 1 } task).1

/-- When task_add returns false the counter was at least MAX_TASKS, provided
it was non-negative to begin with. -/
theorem task_add_false_capacity (t : tboard_t) (task : task_t)
    (h0 : 0 ≤ t.task_count) (h : (task_add t task).fst = false) :
    MAX_TASKS ≤ t.task_count := by
  unfold task_add tboard_add_concurrent at h
  by_cases hm : MAX_TASKS ≤ t.task_count
  · exact hm
  · have hne : ¬(t.task_count + 1 = 0) := by omega
    simp [if_neg hm, if_neg hne] at h

/-! ## Claim theorems -/

/-- C8: every priority-class task is inserted at the head of the primary
ready queue (LIFO for that class only), every primary-class task at the tail
of the primary queue, and every secondary-class task at the tail of the
secondary queue selected by the board's round-robin pointer, which then
advances. -/
theorem task_place_policy (t : tboard_t) (task : task_t) :
    (task.type = PRIORITY_EXEC →
      (task_place t task).pqueue = task :: t.pqueue ∧
      (task_place t task).squeue = t.squeue) ∧
    (task.type = PRIMARY_EXEC →
      (task_place t task).pqueue = t.pqueue ++ [task] ∧
      (task_place t task).squeue = t.squeue) ∧
    (task.type = SECONDARY_EXEC →
      (task_place t task).pqueue = t.pqueue ∧
      (task_place t task).squeue =
        t.squeue.set (t.rr_next % t.sqs)
          (t.squeue.getD (t.rr_next % t.sqs) [] ++ [task]) ∧
      (task_place t task).rr_next = (t.rr_next + 1) % t.sqs) := by
  refine ⟨fun h => ?_, fun h => ?_, fun h => ?_⟩
  · simp [task_place, h, REINSERT_PRIORITY_AT_HEAD]
  · simp [task_place, h, PRIMARY_EXEC, PRIORITY_EXEC]
  · simp [task_place, h, SECONDARY_EXEC, PRIMARY_EXEC, PRIORITY_EXEC]

/-- Witness for C8: placement of one priority, one primary and one secondary
task on the sample board. -/
theorem task_place_policy_witness :
    ((task_place sampleBoard
        (task_t.mk 0 TASK_INITIALIZED PRIORITY_EXEC 0 0 sampleFn 0 none)).pqueue
      = [task_t.mk 0 TASK_INITIALIZED PRIORITY_EXEC 0 0 sampleFn 0 none] ∧
     (task_place sampleBoard
        (task_t.mk 0 TASK_INITIALIZED PRIORITY_EXEC 0 0 sampleFn 0 none)).squeue
      = sampleBoard.squeue) ∧
    ((task_place sampleBoard
        (task_t.mk 0 TASK_INITIALIZED SECONDARY_EXEC 0 0 sampleFn 0 none)).pqueue
      = [] ∧
     (task_place sampleBoard
        (task_t.mk 0 TASK_INITIALIZED SECONDARY_EXEC 0 0 sampleFn 0 none)).squeue
      = [[task_t.mk 0 TASK_INITIALIZED SECONDARY_EXEC 0 0 sampleFn 0 none], []] ∧
     (task_place sampleBoard
        (task_t.mk 0 TASK_INITIALIZED SECONDARY_EXEC 0 0 sampleFn 0 none)).rr_next
      = 1) := by
  constructor
  · have h := (task_place_policy sampleBoard
      (task_t.mk 0 TASK_INITIALIZED PRIORITY_EXEC 0 0 sampleFn 0 none)).1 rfl
    exact ⟨h.1, h.2⟩
  · have h := (task_place_policy sampleBoard
      (task_t.mk 0 TASK_INITIALIZED SECONDARY_EXEC 0 0 sampleFn 0 none)).2.2 rfl
    exact ⟨h.1, by rw [h.2.1]; rfl, by rw [h.2.2]; rfl⟩

/-- C9: blocking_task_create never changes the board's concurrent-task
counter; the blocking child does not reserve a concurrent-task slot. -/
theorem blocking_task_create_task_count (t : tboard_t) (fn : function_t)
    (type : Int) (sizeof_args : Nat) (caller : Option task_t) :
    ((blocking_task_create t fn type sizeof_args caller).snd).task_count
      = t.task_count := by
  unfold blocking_task_create
  match caller with
  | none => rfl
  | some p =>
    exact (task_place_frame t
      (task_t.mk TASK_ID_BLOCKING TASK_INITIALIZED type 0 0 fn sizeof_args
        (some p))).1

/-- C5: if task_create fails because the counter reservation would exceed
MAX_TASKS or because coroutine allocation fails, it returns false; and
whenever it returns false it leaves the board unchanged, so no ready queue is
mutated and the concurrent-task counter keeps its value. -/
theorem task_create_failure_frame (t : tboard_t) (fn : function_t)
    (type : Int) (sizeof_args : Nat) (allocOk : Bool) :
    (MAX_TASKS ≤ t.task_count →
      (task_create t fn type sizeof_args allocOk).fst = false) ∧
    (allocOk = false →
      (task_create t fn type sizeof_args allocOk).fst = false) ∧
    ((task_create t fn type sizeof_args allocOk).fst = false →
      (task_create t fn type sizeof_args allocOk).snd = t) := by
  refine ⟨fun hcap => ?_, fun halloc => ?_, fun hfail => ?_⟩
  · unfold task_create
    by_cases h1 : t.status ≠ 1 ∨ t.shutdown = 1
    · rw [if_pos h1]
    · by_cases h2 : allocOk = false
      · rw [if_neg h1, if_pos h2]
      · rw [if_neg h1, if_neg h2]
        unfold task_add tboard_add_concurrent
        simp [hcap]
  · unfold task_create
    by_cases h1 : t.status ≠ 1 ∨ t.shutdown = 1
    · rw [if_pos h1]
    · rw [if_neg h1, if_pos halloc]
  · by_cases h1 : t.status ≠ 1 ∨ t.shutdown = 1
    · unfold task_create
      rw [if_pos h1]
    · by_cases h2 : allocOk = false
      · unfold task_create
        rw [if_neg h1, if_pos h2]
      · unfold task_create at hfail ⊢
        rw [if_neg h1, if_neg h2] at hfail ⊢
        exact task_add_false_frame t _ hfail

/-- Witness for C5: on a full board the create fails and the board is
returned unchanged, and an allocation failure also returns false with the
board unchanged. -/
theorem task_create_failure_frame_witness :
    ((task_create { sampleBoard with task_count := MAX_TASKS } sampleFn
        PRIMARY_EXEC 0 true).fst = false ∧
     (task_create { sampleBoard with task_count := MAX_TASKS } sampleFn
        PRIMARY_EXEC 0 true).snd
       = { sampleBoard with task_count := MAX_TASKS }) ∧
    ((task_create sampleBoard sampleFn PRIMARY_EXEC 0 false).fst = false ∧
     (task_create sampleBoard sampleFn PRIMARY_EXEC 0 false).snd
       = sampleBoard) := by
  have h1 := task_create_failure_frame
    { sampleBoard with task_count := MAX_TASKS } sampleFn PRIMARY_EXEC 0 true
  have h2 := task_create_failure_frame sampleBoard sampleFn PRIMARY_EXEC 0
    false
  have h1f := h1.1 (le_refl MAX_TASKS)
  have h2f := h2.2.1 rfl
  exact ⟨⟨h1f, h1.2.2 h1f⟩, ⟨h2f, h2.2.2 h2f⟩⟩

/-- C3: tboard_kill returns false exactly when the board is null or is not in
the started state, and killing a started board twice returns true the first
time and false the second time. -/
theorem tboard_kill_contract :
    (∀ b : Option tboard_t, (tboard_kill b).fst = false ↔
      (b = none ∨ ∃ t, b = some t ∧ t.status = 0)) ∧
    (∀ t : tboard_t, t.status = 1 →
      (tboard_kill (some t)).fst = true ∧
      (tboard_kill (tboard_kill (some t)).snd).fst = false) := by
  constructor
  · intro b
    match b with
    | none => simp [tboard_kill]
    | some t =>
      by_cases h : t.status = 0
      · simp [tboard_kill, h]
      · simp [tboard_kill, h]
  · intro t ht
    have hne : ¬(t.status = 0) := by rw [ht]; omega
    constructor
    · simp [tboard_kill, hne]
    · simp [tboard_kill, hne]

/-- Witness for C3: killing the started sample board twice returns true, then
false. -/
theorem tboard_kill_contract_witness :
    sampleBoard.status = 1 ∧
    (tboard_kill (some sampleBoard)).fst = true ∧
    (tboard_kill (tboard_kill (some sampleBoard)).snd).fst = false :=
  ⟨rfl, (tboard_kill_contract.2 sampleBoard rfl).1,
    (tboard_kill_contract.2 sampleBoard rfl).2⟩

/-- C10: for the implemented controller-to-worker TASK_EXEC message kind,
msg_processor returns false exactly when adding the message's task would
exceed the allowed number of concurrently running tasks (and then leaves the
board unchanged, so the caller can return the message to the message queue),
and when it returns true the task has been added to the board: the counter
slot is reserved and the task placed in its ready queue. -/
theorem msg_processor_contract (t : tboard_t) (msg : msg_t) (task : task_t)
    (hty : msg.type = TASK_EXEC) (h0 : 0 ≤ t.task_count) :
    ((msg_processor t msg task).fst = false ↔ MAX_TASKS ≤ t.task_count) ∧
    ((msg_processor t msg task).fst = true →
      (msg_processor t msg task).snd =
        task_place { t with task_count := t.task_count + 1 } task ∧
      (msg_processor t msg task).snd.task_count = t.task_count + 1) ∧
    ((msg_processor t msg task).fst = false →
      (msg_processor t msg task).snd = t) := by
  have hmp : msg_processor t msg task = task_add t task := by
    unfold msg_processor
    rw [if_pos hty]
  rw [hmp]
  refine ⟨⟨fun hf => task_add_false_capacity t task h0 hf, fun hc => ?_⟩,
    fun ht => ?_, task_add_false_frame t task⟩
  · unfold task_add tboard_add_concurrent
    simp [hc]
  · have he := task_add_true_effect t task h0 ht
    exact ⟨he.2.1, he.2.2⟩

/-- Witness for C10: on the empty sample board the message's task is added;
on a full board msg_processor returns false. -/
theorem msg_processor_contract_witness :
    ((msg_processor sampleBoard sampleMsg sampleParent).fst = false ↔
      MAX_TASKS ≤ sampleBoard.task_count) ∧
    ((msg_processor { sampleBoard with task_count := MAX_TASKS } sampleMsg
        sampleParent).fst = false ↔
      MAX_TASKS ≤ MAX_TASKS) :=
  ⟨(msg_processor_contract sampleBoard sampleMsg sampleParent rfl
      (by decide)).1,
   (msg_processor_contract { sampleBoard with task_count := MAX_TASKS }
      sampleMsg sampleParent rfl (by decide)).1⟩

/-- Characterization of the resources freed for one task. -/
theorem mem_ownResources (task : task_t) (r : Resource) :
    r ∈ ownResources task ↔
      (r = Resource.ctxOf task ∨
        (r = Resource.argsOf task ∧ 0 < task.data_size) ∨
        r = Resource.taskObj task) := by
  unfold ownResources
  by_cases h : 0 < task.data_size
  · simp [h]
  · simp [h]

/-- C1: when a blocking child task completes, the executor's completion and
destruction step requeues the parent onto the parent's ready queue and frees
only the child's own resources: the child's coroutine context, the child's
args when owned, and the child's task object.  The parent's context, args and
task object are not freed, the parent is parked alive in a ready queue of the
resulting board, and the concurrent counter is untouched. -/
theorem blocking_child_completion (t : tboard_t) (task p : task_t)
    (hp : task.parent = some p)
    (hq : t.rr_next % t.sqs < t.squeue.length) :
    (task_completion t task).fst = task_place t p ∧
    (task_completion t task).fst.task_count = t.task_count ∧
    (task_completion t task).snd = ownResources task ∧
    (∀ r ∈ (task_completion t task).snd,
      r = Resource.ctxOf task ∨ r = Resource.argsOf task ∨
        r = Resource.taskObj task) ∧
    Resource.ctxOf p ∉ (task_completion t task).snd ∧
    Resource.argsOf p ∉ (task_completion t task).snd ∧
    Resource.taskObj p ∉ (task_completion t task).snd ∧
    p ∈ readyTasks (task_completion t task).fst := by
  have hne := parent_ne_self task p hp
  have hc : task_completion t task = (task_place t p, ownResources task) := by
    unfold task_completion
    rw [hp]
  rw [hc]
  refine ⟨rfl, (task_place_frame t p).1, rfl, ?_, ?_, ?_, ?_,
    task_place_mem t p hq⟩
  · intro r hr
    rcases (mem_ownResources task r).mp hr with h | h | h
    · exact Or.inl h
    · exact Or.inr (Or.inl h.1)
    · exact Or.inr (Or.inr h)
  · intro hmem
    rcases (mem_ownResources task _).mp hmem with h | h | h
    · injection h with h1
      exact hne h1
    · exact absurd h.1 (by simp)
    · exact absurd h (by simp)
  · intro hmem
    rcases (mem_ownResources task _).mp hmem with h | h | h
    · exact absurd h (by simp)
    · injection h.1 with h1
      exact hne h1
    · exact absurd h (by simp)
  · intro hmem
    rcases (mem_ownResources task _).mp hmem with h | h | h
    · exact absurd h (by simp)
    · exact absurd h.1 (by simp)
    · injection h with h1
      exact hne h1

/-- Witness for C1: completing the sample blocking child requeues the sample
parent (alive, not freed) and frees only the child's resources. -/
theorem blocking_child_completion_witness :
    (task_completion sampleBoard sampleChild).fst
      = task_place sampleBoard sampleParent ∧
    (task_completion sampleBoard sampleChild).fst.task_count
      = sampleBoard.task_count ∧
    Resource.taskObj sampleParent ∉ (task_completion sampleBoard sampleChild).snd ∧
    sampleParent ∈ readyTasks (task_completion sampleBoard sampleChild).fst := by
  have h := blocking_child_completion sampleBoard sampleChild sampleParent
    rfl (by decide)
  exact ⟨h.1, h.2.1, h.2.2.2.2.2.2.1, h.2.2.2.2.2.2.2⟩

/-- C6: a remote task created with blocking = false pushes its envelope onto
the outbound message queue and re-admits the originating task to its ready
queue immediately on send: the resulting board is exactly the envelope append
followed by the placement of the originator, the inbound message queue is
neither consulted nor changed, and the originator is parked in a ready queue
again without any inbound response having arrived. -/
theorem remote_nonblocking_readmit (t : tboard_t) (message : String)
    (sizeof_resp : Nat) (p : task_t)
    (hq : t.rr_next % t.sqs < t.squeue.length) :
    (remote_task_create t message sizeof_resp false (some p)).fst = true ∧
    (remote_task_create t message sizeof_resp false (some p)).snd =
      task_place
        { t with msg_sent := t.msg_sent ++
            [{ status := RTASK_SEND, message := message.take MAX_MSG_LENGTH,
               data_size := sizeof_resp, calling_task := p,
               blocking := false }] } p ∧
    (remote_task_create t message sizeof_resp false (some p)).snd.msg_recv
      = t.msg_recv ∧
    p ∈ readyTasks (remote_task_create t message sizeof_resp false (some p)).snd := by
  have hr : remote_task_create t message sizeof_resp false (some p) =
      (true, task_place
        { t with msg_sent := t.msg_sent ++
            [{ status := RTASK_SEND, message := message.take MAX_MSG_LENGTH,
               data_size := sizeof_resp, calling_task := p,
               blocking := false }] } p) := rfl
  rw [hr]
  refine ⟨rfl, rfl, ?_, ?_⟩
  · exact (task_place_frame
      { t with msg_sent := t.msg_sent ++
          [{ status := RTASK_SEND, message := message.take MAX_MSG_LENGTH,
             data_size := sizeof_resp, calling_task := p,
             blocking := false }] } p).2.2.1
  · exact task_place_mem
      { t with msg_sent := t.msg_sent ++
          [{ status := RTASK_SEND, message := message.take MAX_MSG_LENGTH,
             data_size := sizeof_resp, calling_task := p,
             blocking := false }] } p hq

/-- Witness for C6: a non-blocking remote task from the sample parent on the
sample board re-admits the parent at once, with the inbound queue still
empty. -/
theorem remote_nonblocking_readmit_witness :
    (remote_task_create sampleBoard "jamexec" 0 false (some sampleParent)).fst
      = true ∧
    (remote_task_create sampleBoard "jamexec" 0 false
        (some sampleParent)).snd.msg_recv = sampleBoard.msg_recv ∧
    sampleParent ∈ readyTasks
      (remote_task_create sampleBoard "jamexec" 0 false
        (some sampleParent)).snd := by
  have h := remote_nonblocking_readmit sampleBoard "jamexec" 0 sampleParent
    (by decide)
  exact ⟨h.1, h.2.2.1, h.2.2.2⟩

/-- digitChar always yields a decimal digit character. -/
theorem digitChar_range (d : Nat) :
    48 ≤ (digitChar d).toNat ∧ (digitChar d).toNat ≤ 57 := by
  unfold digitChar
  split <;> decide

/-- Every character emitted by the fuelled digit helper is a decimal digit
character. -/
theorem natDecCharsAux_range (fuel : Nat) :
    ∀ n c, c ∈ natDecCharsAux fuel n → 48 ≤ c.toNat ∧ c.toNat ≤ 57 := by
  induction fuel with
  | zero =>
    intro n c hc
    simp [natDecCharsAux] at hc
  | succ f ih =>
    intro n c hc
    rw [natDecCharsAux] at hc
    split at hc
    · simp at hc
    · rcases List.mem_append.mp hc with h | h
      · exact ih _ _ h
      · rw [List.mem_singleton] at h
        subst h
        exact digitChar_range _

/-- Every character of a printf-style rendered natural number is a decimal
digit character (in particular ASCII and not whitespace). -/
theorem natRepr_range (n : Nat) :
    ∀ c ∈ (natRepr n).data, 48 ≤ c.toNat ∧ c.toNat ≤ 57 := by
  unfold natRepr
  by_cases h : n = 0
  · rw [if_pos h]
    intro c hc
    have h0 : ("0" : String).data = ['0'] := rfl
    rw [h0, List.mem_singleton] at hc
    subst hc
    decide
  · rw [if_neg h]
    intro c hc
    exact natDecCharsAux_range n n c hc

/-- Every character of a record line is ASCII provided the function name is
ASCII: record lines are the six fields separated by single spaces, and every
numeric field is made of decimal digits. -/
theorem recordLine_ascii (h : history_t)
    (hname : ∀ c ∈ h.fn_name.data, c.toNat < 128) :
    ∀ c ∈ (recordLine h).data, c.toNat < 128 := by
  intro c hc
  unfold recordLine at hc
  simp only [String.data_append, List.mem_append] at hc
  have hsp : ∀ d : Char, d ∈ (" " : String).data → d.toNat < 128 := by
    intro d hd
    have h0 : (" " : String).data = [' '] := rfl
    rw [h0, List.mem_singleton] at hd
    subst hd
    decide
  have hnum : ∀ m : Nat, ∀ d : Char, d ∈ (natRepr m).data → d.toNat < 128 := by
    intro m d hd
    have := natRepr_range m d hd
    omega
  rcases hc with ((((((((((h1 | h1) | h1) | h1) | h1) | h1) | h1) | h1) | h1)
      | h1) | h1)
  · exact hname c h1
  · exact hsp c h1
  · exact hnum _ c h1
  · exact hsp c h1
  · exact hnum _ c h1
  · exact hsp c h1
  · exact hnum _ c h1
  · exact hsp c h1
  · exact hnum _ c h1
  · exact hsp c h1
  · exact hnum _ c h1

/-- C7: history_print_records emits exactly one record per history-table
entry (hence exactly one per function name, table keys being unique), and
each record is the six whitespace-separated fields in order: function name,
completions, executions, total yields, mean CPU time, mean yields; records
are ASCII whenever the function names are, every numeric field being plain
decimal digits. -/
theorem history_print_records_format (t : tboard_t) :
    history_print_records t = t.exec_hist.map recordLine ∧
    (history_print_records t).length = t.exec_hist.length ∧
    (∀ name : String, (t.exec_hist.map history_t.fn_name).Nodup →
      name ∈ t.exec_hist.map history_t.fn_name →
      (t.exec_hist.map history_t.fn_name).count name = 1) ∧
    (∀ h : history_t, recordLine h =
      h.fn_name ++ " " ++ natRepr h.completions ++ " " ++ natRepr h.executions
        ++ " " ++ natRepr h.yields ++ " " ++ natRepr h.mean_t
        ++ " " ++ natRepr h.mean_yield) ∧
    (∀ n : Nat, ∀ c ∈ (natRepr n).data, 48 ≤ c.toNat ∧ c.toNat ≤ 57) ∧
    (∀ h : history_t, (∀ c ∈ h.fn_name.data, c.toNat < 128) →
      ∀ c ∈ (recordLine h).data, c.toNat < 128) := by
  refine ⟨rfl, by simp [history_print_records], ?_, fun h => rfl, natRepr_range,
    recordLine_ascii⟩
  intro name hnd hmem
  exact List.count_eq_one_of_mem hnd hmem

/-- Witness for C7: a two-entry history table prints two records, the name
keys occur once each, and the sample record is the expected space-separated
ASCII line. -/
theorem history_print_records_format_witness :
    history_print_records
        { sampleBoard with exec_hist :=
            [{ fn_name := "fadd", mean_t := 7, mean_yield := 1, yields := 5,
               executions := 3, completions := 2 },
             { fn_name := "fsub", mean_t := 0, mean_yield := 0, yields := 0,
               executions := 1, completions := 0 }] }
      = ["fadd 2 3 5 7 1", "fsub 0 1 0 0 0"] ∧
    (({ sampleBoard with exec_hist :=
            [{ fn_name := "fadd", mean_t := 7, mean_yield := 1, yields := 5,
               executions := 3, completions := 2 },
             { fn_name := "fsub", mean_t := 0, mean_yield := 0, yields := 0,
               executions := 1, completions := 0 }] } :
        tboard_t).exec_hist.map history_t.fn_name).count "fadd" = 1 := by
  have h := history_print_records_format
    { sampleBoard with exec_hist :=
        [{ fn_name := "fadd", mean_t := 7, mean_yield := 1, yields := 5,
           executions := 3, completions := 2 },
         { fn_name := "fsub", mean_t := 0, mean_yield := 0, yields := 0,
           executions := 1, completions := 0 }] }
  refine ⟨?_, h.2.2.1 "fadd" (by decide) (by decide)⟩
  rw [h.1]
  decide

/-- Outcome cases of task_create on a board with a non-negative counter:
either it fails and leaves the board unchanged, or it succeeds, the counter
was strictly below MAX_TASKS and has been incremented by one. -/
theorem task_create_count_cases (t : tboard_t) (fn : function_t) (ty : Int)
    (sz : Nat) (ok : Bool) (h0 : 0 ≤ t.task_count) :
    ((task_create t fn ty sz ok).fst = false ∧
      (task_create t fn ty sz ok).snd = t) ∨
    ((task_create t fn ty sz ok).fst = true ∧ t.task_count < MAX_TASKS ∧
      (task_create t fn ty sz ok).snd.task_count = t.task_count + 1) := by
  by_cases h1 : t.status ≠ 1 ∨ t.shutdown = 1
  · left
    unfold task_create
    rw [if_pos h1]
    exact ⟨rfl, rfl⟩
  · by_cases h2 : ok = false
    · left
      unfold task_create
      rw [if_neg h1, if_pos h2]
      exact ⟨rfl, rfl⟩
    · unfold task_create
      rw [if_neg h1, if_neg h2]
      cases hb : (task_add t
          (task_t.mk 0 TASK_INITIALIZED ty 0 0 fn sz none)).fst with
      | false => exact Or.inl ⟨rfl, task_add_false_frame t _ hb⟩
      | true =>
        have he := task_add_true_effect t _ h0 hb
        exact Or.inr ⟨rfl, he.1, he.2.2⟩

/-- Along any well-formed operation sequence the concurrent-task counter
stays in [0, MAX_TASKS] and moves by exactly the number of successful
creations minus the number of destructions. -/
theorem runOps_invariant (ops : List TaskOp) :
    ∀ t : tboard_t, 0 ≤ t.task_count → t.task_count ≤ MAX_TASKS →
      wfOps t ops = true →
      (runOps t ops).task_count
          = t.task_count + createdCount t ops - destroyedCount ops ∧
        0 ≤ (runOps t ops).task_count ∧
        (runOps t ops).task_count ≤ MAX_TASKS := by
  induction ops with
  | nil =>
    intro t h0 h1 _
    refine ⟨?_, h0, h1⟩
    simp [runOps, createdCount, destroyedCount]
  | cons op ops ih =>
    intro t h0 h1 hwf
    match op with
    | .create fn ty sz ok =>
      have hwf1 : wfOps (applyOp t (.create fn ty sz ok)) ops = true := hwf
      have hrun : runOps t (.create fn ty sz ok :: ops)
          = runOps (applyOp t (.create fn ty sz ok)) ops := rfl
      have hdes : destroyedCount (.create fn ty sz ok :: ops)
          = destroyedCount ops := rfl
      have happ : applyOp t (.create fn ty sz ok)
          = (task_create t fn ty sz ok).snd := rfl
      rcases task_create_count_cases t fn ty sz ok h0 with
        ⟨hf, hsnd⟩ | ⟨htr, hlt, hcnt⟩
      · have hcr : createdCount t (.create fn ty sz ok :: ops)
            = createdCount (applyOp t (.create fn ty sz ok)) ops := by
          rw [createdCount, hf]
          simp
        have hih := ih (applyOp t (.create fn ty sz ok))
          (by rw [happ, hsnd]; exact h0) (by rw [happ, hsnd]; exact h1) hwf1
        rw [hrun, hdes, hcr]
        refine ⟨?_, hih.2.1, hih.2.2⟩
        rw [hih.1, happ, hsnd]
      · have hcr : createdCount t (.create fn ty sz ok :: ops)
            = 1 + createdCount (applyOp t (.create fn ty sz ok)) ops := by
          rw [createdCount, htr]
          simp
        have h0n : 0 ≤ (applyOp t (.create fn ty sz ok)).task_count := by
          rw [happ, hcnt]
          omega
        have h1n : (applyOp t (.create fn ty sz ok)).task_count
            ≤ MAX_TASKS := by
          rw [happ, hcnt]
          omega
        have hih := ih (applyOp t (.create fn ty sz ok)) h0n h1n hwf1
        rw [hrun, hdes, hcr]
        refine ⟨?_, hih.2.1, hih.2.2⟩
        rw [hih.1, happ, hcnt]
        ring
    | .destroy =>
      have hwfd : (decide (0 < t.task_count)
            && wfOps (applyOp t .destroy) ops) = true := hwf
      rw [Bool.and_eq_true] at hwfd
      have hpos : 0 < t.task_count := of_decide_eq_true hwfd.1
      have happ : (applyOp t .destroy).task_count = t.task_count - 1 := rfl
      have hih := ih (applyOp t .destroy) (by omega) (by rw [happ]; omega)
        hwfd.2
      have hrun : runOps t (.destroy :: ops)
          = runOps (applyOp t .destroy) ops := rfl
      have hcr : createdCount t (.destroy :: ops)
          = createdCount (applyOp t .destroy) ops := rfl
      have hdes : destroyedCount (.destroy :: ops)
          = 1 + destroyedCount ops := rfl
      rw [hrun, hcr, hdes]
      refine ⟨?_, hih.2.1, hih.2.2⟩
      rw [hih.1, happ]
      ring

/-- C2: starting from a freshly created and then started board, for every
well-formed sequence of task_create and task-destroy operations the board's
concurrent-task counter equals the number of tasks successfully created
minus the number destroyed, and it never exceeds MAX_TASKS = 65536. -/
theorem task_count_tracks_creations (n : Nat) (t0 : tboard_t)
    (hc : tboard_create n = some t0) (ops : List TaskOp)
    (hwf : wfOps (tboard_start t0) ops = true) :
    (runOps (tboard_start t0) ops).task_count
        = createdCount (tboard_start t0) ops - destroyedCount ops ∧
    (runOps (tboard_start t0) ops).task_count ≤ MAX_TASKS ∧
    MAX_TASKS = 65536 := by
  have h0 : t0.task_count = 0 := by
    unfold tboard_create at hc
    split at hc
    · cases hc
      rfl
    · cases hc
  have hs : (tboard_start t0).task_count = 0 := h0
  have hinv := runOps_invariant ops (tboard_start t0) (by omega)
    (by rw [hs]; decide) hwf
  refine ⟨?_, hinv.2.2, rfl⟩
  rw [hinv.1, hs]
  ring

/-- Witness for C2: on a board fresh from tboard_create 1, a successful
create followed by a destroy is well formed and leaves the counter at
creations minus destructions, below MAX_TASKS. -/
theorem task_count_tracks_creations_witness :
    tboard_create 1 = some witnessBoard ∧
    wfOps (tboard_start witnessBoard) witnessOps = true ∧
    (runOps (tboard_start witnessBoard) witnessOps).task_count
        = createdCount (tboard_start witnessBoard) witnessOps
          - destroyedCount witnessOps ∧
    (runOps (tboard_start witnessBoard) witnessOps).task_count
      ≤ MAX_TASKS := by
  have hcreate : tboard_create 1 = some witnessBoard := rfl
  have hwf : wfOps (tboard_start witnessBoard) witnessOps = true := rfl
  have h := task_count_tracks_creations 1 witnessBoard hcreate witnessOps hwf
  exact ⟨hcreate, hwf, h.1, h.2.1⟩

/-- Once the parent has resumed, the blocking-child protocol has no further
events: parentRunning is terminal. -/
theorem bcRun_parentRunning (evs : List BCEvent) (s' : BCState)
    (h : bcRun .parentRunning evs = some s') :
    evs = [] ∧ s' = .parentRunning := by
  cases evs with
  | nil =>
    rw [bcRun] at h
    cases h
    exact ⟨rfl, rfl⟩
  | cons e es =>
    cases e <;> rw [bcRun] at h <;> simp [bcStep] at h

/-- Splitting a protocol run at a list split point. -/
theorem bcRun_append (l1 l2 : List BCEvent) :
    ∀ s : BCState,
      bcRun s (l1 ++ l2) = (bcRun s l1).bind fun m => bcRun m l2 := by
  induction l1 with
  | nil =>
    intro s
    rw [List.nil_append, bcRun, Option.some_bind]
  | cons e es ih =>
    intro s
    rw [List.cons_append]
    simp only [bcRun]
    cases hstep : bcStep s e with
    | none => rfl
    | some s1 => exact ih s1

/-- In a protocol run that does not start in the terminal state, the parent
resumes exactly once if the run ends with the parent resumed and never
otherwise. -/
theorem bcRun_countResume (evs : List BCEvent) :
    ∀ s s' : BCState, bcRun s evs = some s' → s ≠ .parentRunning →
      countResume evs = (if s' = .parentRunning then 1 else 0) := by
  induction evs with
  | nil =>
    intro s s' h hne
    rw [bcRun] at h
    cases h
    rw [countResume, if_neg hne]
  | cons e es ih =>
    intro s s' h hne
    rw [bcRun] at h
    cases s with
    | parentRunning => exact absurd rfl hne
    | childQueued =>
      cases e with
      | popChild =>
        rw [show bcStep .childQueued .popChild = some .childRunning from rfl]
          at h
        exact ih _ _ h (by decide)
      | yieldChild => simp [bcStep] at h
      | completeChild => simp [bcStep] at h
      | resumeParent => simp [bcStep] at h
    | childRunning =>
      cases e with
      | popChild => simp [bcStep] at h
      | yieldChild =>
        rw [show bcStep .childRunning .yieldChild = some .childQueued from rfl]
          at h
        exact ih _ _ h (by decide)
      | completeChild =>
        rw [show bcStep .childRunning .completeChild = some .parentQueued
          from rfl] at h
        exact ih _ _ h (by decide)
      | resumeParent => simp [bcStep] at h
    | parentQueued =>
      cases e with
      | popChild => simp [bcStep] at h
      | yieldChild => simp [bcStep] at h
      | completeChild => simp [bcStep] at h
      | resumeParent =>
        rw [show bcStep .parentQueued .resumeParent = some .parentRunning
          from rfl] at h
        rcases bcRun_parentRunning es s' h with ⟨he, hs'⟩
        subst he
        subst hs'
        decide

/-- A protocol run that moves from a child-side state to a parent-side state
contains the child's completion event. -/
theorem bcRun_complete_mem (evs : List BCEvent) :
    ∀ s s' : BCState, bcRun s evs = some s' →
      (s = .childQueued ∨ s = .childRunning) →
      (s' = .parentQueued ∨ s' = .parentRunning) →
      .completeChild ∈ evs := by
  induction evs with
  | nil =>
    intro s s' h hs hs'
    rw [bcRun] at h
    cases h
    rcases hs with h1 | h1 <;> rcases hs' with h2 | h2 <;> subst h1 <;>
      cases h2
  | cons e es ih =>
    intro s s' h hs hs'
    rw [bcRun] at h
    rcases hs with h1 | h1 <;> subst h1
    · cases e with
      | popChild =>
        rw [show bcStep .childQueued .popChild = some .childRunning from rfl]
          at h
        exact List.mem_cons_of_mem _ (ih _ _ h (Or.inr rfl) hs')
      | yieldChild => simp [bcStep] at h
      | completeChild => simp [bcStep] at h
      | resumeParent => simp [bcStep] at h
    · cases e with
      | popChild => simp [bcStep] at h
      | yieldChild =>
        rw [show bcStep .childRunning .yieldChild = some .childQueued from rfl]
          at h
        exact List.mem_cons_of_mem _ (ih _ _ h (Or.inl rfl) hs')
      | completeChild => exact List.mem_cons_self _ _
      | resumeParent => simp [bcStep] at h

/-- C4: in every scheduler run of the blocking-child protocol started right
after blocking_task_create parks the parent and queues the child, the parent
resumes at most once; it resumes exactly once when the run ends with control
returned inside the parent (that is when blocking_task_create returns), it
never resumes in a run that has not reached that point, and every resumption
is preceded by the child's completion. -/
theorem blocking_child_resume_once (evs : List BCEvent) (s' : BCState)
    (h : bcRun .childQueued evs = some s') :
    countResume evs ≤ 1 ∧
    (s' = .parentRunning → countResume evs = 1) ∧
    (s' ≠ .parentRunning → countResume evs = 0) ∧
    (∀ l1 l2 : List BCEvent, evs = l1 ++ .resumeParent :: l2 →
      .completeChild ∈ l1) := by
  have hcnt := bcRun_countResume evs .childQueued s' h (by decide)
  refine ⟨?_, fun hpr => ?_, fun hpr => ?_, ?_⟩
  · rw [hcnt]
    split <;> omega
  · rw [hcnt, if_pos hpr]
  · rw [hcnt, if_neg hpr]
  · intro l1 l2 hsplit
    rw [hsplit, bcRun_append] at h
    cases hm : bcRun .childQueued l1 with
    | none =>
      rw [hm, Option.none_bind] at h
      cases h
    | some m =>
      rw [hm, Option.some_bind] at h
      rw [bcRun] at h
      have hmq : m = .parentQueued := by
        cases m with
        | parentQueued => rfl
        | childQueued => simp [bcStep] at h
        | childRunning => simp [bcStep] at h
        | parentRunning => simp [bcStep] at h
      subst hmq
      exact bcRun_complete_mem l1 .childQueued .parentQueued hm
        (Or.inl rfl) (Or.inl rfl)

/-- Witness for C4: in the run pop-child, complete-child, resume-parent the
parent resumes exactly once, and the completion precedes the resumption. -/
theorem blocking_child_resume_once_witness :
    countResume [BCEvent.popChild, BCEvent.completeChild,
      BCEvent.resumeParent] = 1 ∧
    BCEvent.completeChild ∈ [BCEvent.popChild, BCEvent.completeChild] := by
  have h := blocking_child_resume_once
    [BCEvent.popChild, BCEvent.completeChild, BCEvent.resumeParent]
    .parentRunning rfl
  exact ⟨h.2.1 rfl,
    h.2.2.2 [BCEvent.popChild, BCEvent.completeChild] [] rfl⟩

end TBoard
